import Mathlib

/-!
Verification of the learned-optimizer models (ALISTA / GLISTA variants) of
`opt_guarantees/alista_model.py` and `opt_guarantees/glista_model.py`.

Shallow embedding conventions:
- jax arrays of reals are embedded as `List ℝ` (vectors) and `List (List ℝ)`
  (row-major matrices); machine floats are idealized as real numbers, except
  where a claim is specifically about NaN production, which is modelled by an
  `Option ℝ` semantics (`none` = non-finite result, i.e. NaN or an infinity).
- `jnp.clip(x, a_max=c)` is `min x c`; `jnp.pi` is `Real.pi`.
- Functions imported from modules of the repository that are not part of the
  two source files (`opt_guarantees.utils.nn_utils`, `opt_guarantees.l2o_model`,
  `opt_guarantees.algo_steps`) and third-party primitives (`jax.random`) are
  either modelled from the specification (and documented as such) or carried
  as explicit fields of an environment structure and left universally
  quantified in the theorems.
-/

open Pointwise Matrix

noncomputable section

/-- Column extraction `A[:, i]` for a row-major matrix embedded as a list of
rows (entries out of range default to 0; all uses stay in range). -/
def column (A : List (List ℝ)) (i : ℕ) : List ℝ :=
  A.map (fun r => r.getD i 0)

/-- Elementwise unary operation on a row-major matrix (jax broadcasting of a
scalar function over an array). -/
def matMap (f : ℝ → ℝ) (A : List (List ℝ)) : List (List ℝ) :=
  A.map (List.map f)

/-- Elementwise binary operation on two row-major matrices of equal shape
(jax elementwise `+` and `*`). -/
def matZipWith (f : ℝ → ℝ → ℝ) (A B : List (List ℝ)) : List (List ℝ) :=
  List.zipWith (List.zipWith f) A B

/-- Entry `A[i][j]` of a row-major matrix, defaulting to 0 out of range. -/
def entry (A : List (List ℝ)) (i j : ℕ) : ℝ :=
  (A.getD i []).getD j 0

/-- `jnp.mean` of a vector: sum divided by length. -/
def listMean (l : List ℝ) : ℝ :=
  l.sum / l.length

/-- `jnp.std` of a vector: square root of the mean squared deviation
(population standard deviation, jax default `ddof=0`). -/
def listStd (l : List ℝ) : ℝ :=
  Real.sqrt ((l.map (fun x => (x - listMean l) ^ 2)).sum / l.length)

/-- Row-major flattening of a list of pairs: the entries of a (K, 2) array in
their natural order. -/
def pairEntries : List (ℝ × ℝ) → List ℝ
  | [] => []
  | wb :: rest => wb.1 :: wb.2 :: pairEntries rest

/-- The parameter triple `params = [mean_params, sigma_params, prior_param]`
held by both model variants: per-iteration posterior means, per-iteration
posterior log-variances, and the shared prior log-variance vector. -/
structure Params where
  mean : List (List ℝ)
  sigma : List (List ℝ)
  prior : List ℝ

/-- Modelled from the spec: `compute_single_param_KL` is imported from
`opt_guarantees/utils/nn_utils.py`, which is not among the source files.
Per section 4.6 of the specification it takes a posterior mean vector, a
posterior variance vector (one entry per unrolled iteration) and a scalar
prior variance, and returns the KL divergence between the product of the
per-iteration Gaussians and the zero-mean Gaussian prior with that shared
variance, summed over iterations; in closed form each iteration contributes
KL(N(mu, v) parallel N(0, lam)) = ((v + mu^2) / lam - 1 + log (lam / v)) / 2. -/
def compute_single_param_KL (means vars : List ℝ) (priorVar : ℝ) : ℝ :=
  (List.zipWith (fun mu v => ((v + mu ^ 2) / priorVar - 1 + Real.log (priorVar / v)) / 2)
    means vars).sum

namespace ALISTAmodel

/-- `ALISTAmodel.compute_all_params_KL` (alista_model.py lines 147-155): the
KL penalty summed over the two hyperparameter groups (step size column 0 and
threshold column 1), each column against the exponential of its own prior
entry. -/
def compute_all_params_KL (mean_params sigma_params : List (List ℝ)) (lambd : List ℝ) : ℝ :=
  compute_single_param_KL (column mean_params 0) ((column sigma_params 0).map Real.exp)
      (Real.exp (lambd.getD 0 0))
    + compute_single_param_KL (column mean_params 1) ((column sigma_params 1).map Real.exp)
      (Real.exp (lambd.getD 1 0))

/-- `ALISTAmodel.calculate_total_penalty` (alista_model.py lines 130-145):
union-bound term with the `num_groups` multiplier, per-group clipped log
penalty accumulated over the prior entries, plus the KL penalty, all divided
by `N_train`. -/
def calculate_total_penalty (N_train : ℝ) (params : Params) (c b delta : ℝ) : ℝ :=
  let rounded_priors := params.prior
  let num_groups := rounded_priors.length
  let pi_pen := Real.log (Real.pi ^ 2 * num_groups * N_train / (6 * delta))
  let log_pen := (rounded_priors.map
    (fun p => 2 * Real.log (b * Real.log ((c + 1e-6) / min (Real.exp p) c)))).sum
  (compute_all_params_KL params.mean params.sigma rounded_priors + pi_pen + log_pen) / N_train

/-- Modelled from the spec: `calculate_pinsker_penalty` is imported from
`opt_guarantees/utils/nn_utils.py`, which is not among the source files.
Section 4.7 of the specification states that the loss composer adds
`penalty_coeff` times the penalty of the variant's own penalty engine
(section 4.5), i.e. this model's `calculate_total_penalty`; the argument
order follows the call site `(N_train, params, b, c, delta)`. -/
def calculate_pinsker_penalty (N_train : ℝ) (params : Params) (b c delta : ℝ) : ℝ :=
  calculate_total_penalty N_train params c b delta

/-- `ALISTAmodel.init_params` (alista_model.py lines 42-56): means all one,
log-variances all minus ten, prior entries all `log init_var`. -/
def init_params (train_unrolls : ℕ) (init_var : ℝ) : Params :=
  { mean := List.replicate train_unrolls (List.replicate 2 (1 : ℝ))
    sigma := List.replicate train_unrolls (List.replicate 2 (-(10 : ℝ)))
    prior := List.replicate 2 (Real.log init_var) }

/-- `ALISTAmodel.calculate_avg_posterior_var` (alista_model.py lines 160-168):
each row of the (K, 2) log-variance array is unpacked into a pair
`(weight_matrix, bias_vector)` of scalars; the first components and then the
second components are concatenated, exponentiated, and their mean and
standard deviation returned. -/
def calculate_avg_posterior_var (sigma_params : List (ℝ × ℝ)) : ℝ × ℝ :=
  let weight_var := sigma_params.map (fun wb => wb.1)
  let bias_var := sigma_params.map (fun wb => wb.2)
  let flattened_params := weight_var ++ bias_var
  let variances := flattened_params.map Real.exp
  (listMean variances, listStd variances)

end ALISTAmodel

namespace GLISTAmodel

/-- `GLISTAmodel.compute_all_params_KL` (glista_model.py lines 140-147): the
KL penalty summed over all five hyperparameter columns, each against the
exponential of its own prior entry. -/
def compute_all_params_KL (mean_params sigma_params : List (List ℝ)) (lambd : List ℝ) : ℝ :=
  ((List.range 5).map (fun i =>
    compute_single_param_KL (column mean_params i) ((column sigma_params i).map Real.exp)
      (Real.exp (lambd.getD i 0)))).sum

/-- `GLISTAmodel.calculate_total_penalty` (glista_model.py lines 131-138):
union-bound term without a `num_groups` multiplier, a single unclipped log
penalty using only the first prior entry, plus the KL penalty, all divided by
`N_train`. -/
def calculate_total_penalty (N_train : ℝ) (params : Params) (c b delta : ℝ) : ℝ :=
  let pi_pen := Real.log (Real.pi ^ 2 * N_train / (6 * delta))
  let log_pen := 2 * Real.log (b * Real.log (c / Real.exp (params.prior.getD 0 0)))
  (compute_all_params_KL params.mean params.sigma params.prior + pi_pen + log_pen) / N_train

/-- Modelled from the spec: `calculate_pinsker_penalty` is imported from
`opt_guarantees/utils/nn_utils.py`, which is not among the source files.
Section 4.7 of the specification states that the loss composer adds
`penalty_coeff` times the penalty of the variant's own penalty engine
(section 4.5), i.e. this model's `calculate_total_penalty`; the argument
order follows the call site `(N_train, params, b, c, delta)`. -/
def calculate_pinsker_penalty (N_train : ℝ) (params : Params) (b c delta : ℝ) : ℝ :=
  calculate_total_penalty N_train params c b delta

/-- `GLISTAmodel.init_params` (glista_model.py lines 42-57): means all one
except column 1 which is set to one half, log-variances all minus ten, prior
entries all `log init_var`. -/
def init_params (train_unrolls : ℕ) (init_var : ℝ) : Params :=
  { mean := (List.replicate train_unrolls (List.replicate 5 (1 : ℝ))).map
      (fun r => r.set 1 (0.5 : ℝ))
    sigma := List.replicate train_unrolls (List.replicate 5 (-(10 : ℝ)))
    prior := List.replicate 5 (Real.log init_var) }

/-- `GLISTAmodel.calculate_avg_posterior_var` (glista_model.py lines
152-153): the constant pair (0, 0), ignoring the parameters. -/
def calculate_avg_posterior_var (_params : Params) : ℝ × ℝ :=
  (0, 0)

end GLISTAmodel

/-- An eigenvalue of a square real matrix: some nonzero vector is scaled by
`mu` under `M.mulVec`. -/
def HasEig {n : ℕ} (M : Matrix (Fin n) (Fin n) ℝ) (mu : ℝ) : Prop :=
  ∃ v : Fin n → ℝ, v ≠ 0 ∧ M.mulVec v = mu • v

/-- `evals.max()` of `jnp.linalg.eigh(M)`: the supremum of the eigenvalues of
a square real matrix (for the symmetric positive semidefinite matrices
`D.T @ D` arising in `initialize_algo` this is the top eigenvalue). -/
def maxEig {n : ℕ} (M : Matrix (Fin n) (Fin n) ℝ) : ℝ :=
  sSup {mu | HasEig M mu}

/-- The baseline step size computed by `initialize_algo` of both variants
(alista_model.py / glista_model.py lines 31-34): eigenvalues of `D.T @ D` are
taken and `self.ista_step = lambd / evals.max()` with `lambd = 0.1`. -/
def ista_step {m n : ℕ} (D : Matrix (Fin m) (Fin n) ℝ) : ℝ :=
  0.1 / maxEig (Dᵀ * D)

/-- Addition on float results: `none` models a non-finite value (NaN or an
infinity), which propagates through arithmetic as in IEEE semantics. -/
def oadd (x y : Option ℝ) : Option ℝ :=
  x.bind fun a => y.map fun b => a + b

/-- Multiplication on float results with `none` propagation. -/
def omul (x y : Option ℝ) : Option ℝ :=
  x.bind fun a => y.map fun b => a * b

/-- `jnp.log` on float results: the logarithm of a non-positive argument is
non-finite (NaN for a negative argument, minus infinity at zero); jax raises
no exception in either case, it returns the non-finite value silently. -/
def olog (x : Option ℝ) : Option ℝ :=
  x.bind fun v => if 0 < v then some (Real.log v) else none

/-- The per-parameter KL divergence with `jnp.log` modelled by `olog`, so that
a non-positive logarithm argument yields `none` instead of an ideal real. -/
def compute_single_param_KL_checked (means vars : List ℝ) (priorVar : ℝ) : Option ℝ :=
  (List.zipWith (fun mu v =>
      omul (oadd (some ((v + mu ^ 2) / priorVar - 1)) (olog (some (priorVar / v)))) (some (1 / 2)))
    means vars).foldl oadd (some 0)

/-- `GLISTAmodel.calculate_total_penalty` (glista_model.py lines 131-138)
re-expressed with `jnp.log` modelled by `olog`: the same arithmetic as
`GLISTAmodel.calculate_total_penalty`, except that each logarithm records
whether its argument was positive; a `none` result means the float
computation silently produced a non-finite value (NaN or an infinity) and
returned it to the caller without raising any error. -/
def glista_total_penalty_checked (N_train : ℝ) (params : Params) (c b delta : ℝ) : Option ℝ :=
  let pi_pen := olog (some (Real.pi ^ 2 * N_train / (6 * delta)))
  let log_pen := omul (some 2)
    (olog (omul (some b) (olog (some (c / Real.exp (params.prior.getD 0 0))))))
  let kl := ((List.range 5).map (fun i =>
    compute_single_param_KL_checked (column params.mean i) ((column params.sigma i).map Real.exp)
      (Real.exp (params.prior.getD i 0)))).foldl oadd (some 0)
  (oadd (oadd kl pi_pen) log_pen).map (fun x => x / N_train)

/-- The output tuple of an evaluation kernel from `opt_guarantees.algo_steps`
(an external collaborator): final estimate, per-iteration losses, the full
per-iteration trajectory `z_all_plus_1`, and the remaining diagnostic outputs
`eval_out[3:]`, passed through unchanged. -/
structure EvalOut where
  zFinal : List ℝ
  iterLosses : List ℝ
  zAll : List (List ℝ)
  extra : List ℝ

/-- The base-class state and the external collaborators consumed by the
forward-pass closure `predict` of both variants: fields set by the base
`L2Omodel` and `initialize_algo` (`train_unrolls`, `deterministic`,
`supervised`, `loss_method`, `D`, `ista_step`, `N_train`, `b`, `c`, `delta`,
`penalty_coeff`, the optional `train_fn` / `eval_fn` overrides), the three
algorithm-step kernels, the pseudo-random normal generator (jax
`random.normal (random.PRNGKey key)`, a pure function of the seed and the
position), and the loss-dispatch primitive `final_loss`. The matrix type `M`
of `D` is abstract: `predict` only forwards `D` to the baseline kernel. -/
structure ModelEnv (M : Type) where
  trainUnrolls : ℕ
  deterministic : Bool
  supervised : Bool
  lossMethod : ℕ
  D : M
  istaStep : ℝ
  NTrain : ℝ
  b : ℝ
  c : ℝ
  delta : ℝ
  penaltyCoeff : ℝ
  trainFnOverride : Option (ℕ → List ℝ → List ℝ → List (List ℝ) → Bool → List ℝ → List ℝ × List ℝ)
  evalFnOverride : Option (ℕ → List ℝ → List ℝ → List (List ℝ) → Bool → List ℝ → EvalOut)
  kStepsTrain : ℕ → List ℝ → List ℝ → List (List ℝ) → Bool → List ℝ → List ℝ × List ℝ
  kStepsEval : ℕ → List ℝ → List ℝ → List (List ℝ) → Bool → List ℝ → EvalOut
  kStepsEvalIsta : ℕ → List ℝ → List ℝ → ℝ → M → ℝ → Bool → List ℝ → EvalOut
  randomNormal : ℕ → ℕ → ℕ → ℝ
  finalLoss : ℕ → List ℝ → List ℝ → Bool → List ℝ → List ℝ → ℝ

/-- The `(train_unrolls, width)` standard-normal perturbation drawn inside
`predict`: `random.normal (random.PRNGKey key) (train_unrolls, width)`,
deterministic in the seed. -/
def perturb_draw {M : Type} (env : ModelEnv M) (width : ℕ) (key : ℕ) : List (List ℝ) :=
  (List.range env.trainUnrolls).map fun i => (List.range width).map fun j =>
    env.randomNormal key i j

/-- The stochastic parameter sampler embedded in `predict` (alista_model.py
lines 74-82, glista_model.py lines 75-83): the mean array when the
deterministic flag is set, otherwise
`params[0] + sqrt (exp params[1]) * perturb` elementwise. -/
def realized_params {M : Type} (env : ModelEnv M) (width : ℕ) (params : Params) (key : ℕ) :
    List (List ℝ) :=
  if env.deterministic then params.mean
  else matZipWith (fun a p => a + p) params.mean
    (matZipWith (fun s p => s * p) (matMap (fun s => Real.sqrt (Real.exp s)) params.sigma)
      (perturb_draw env width key))

/-- The branch dispatch of `predict` (alista_model.py lines 62-112,
glista_model.py lines 63-113), identical in the two source files: bypass runs
the fixed baseline `k_steps_eval_ista` with `lambd = 0.1`, the baseline step
and `supervised=True`; otherwise the train or eval kernel runs on the
realized parameters. Returns `(z_final, iter_losses, z_all_plus_1, angles,
eval_out[3:])`; in the train branch the last three components are never
produced by the source (the closure returns only the loss there) and are
filled with junk defaults that `predict` does not return. -/
def l2o_forward {M : Type} (env : ModelEnv M) (bypass_nn diff_required : Bool)
    (sp : List (List ℝ)) (q : List ℝ) (iters : ℕ) (zStar : List ℝ) :
    List ℝ × List ℝ × List (List ℝ) × Option Unit × List ℝ :=
  let z0 : List ℝ := List.replicate zStar.length 0
  let supervised := env.supervised && diff_required
  let train_fn := env.trainFnOverride.getD env.kStepsTrain
  let eval_fn := env.evalFnOverride.getD env.kStepsEval
  if bypass_nn then
    let eval_out := env.kStepsEvalIsta iters z0 q 0.1 env.D env.istaStep true zStar
    (eval_out.zFinal, eval_out.iterLosses, eval_out.zAll, none, eval_out.extra)
  else if diff_required then
    let p := train_fn iters z0 q sp supervised zStar
    (p.1, p.2, [], none, [])
  else
    let eval_out := eval_fn iters z0 q sp supervised zStar
    (eval_out.zFinal, eval_out.iterLosses, eval_out.zAll, none, eval_out.extra)

/-- The value returned by the `predict` closure: a bare scalar loss when
differentiability is required, otherwise the tuple
`(loss, iter_losses, z_all_plus_1, angles) + eval_out[3:]`. -/
inductive PredictOut where
  | trainLoss (loss : ℝ)
  | evalTuple (loss : ℝ) (iterLosses : List ℝ) (zAllPlus1 : List (List ℝ))
      (angles : Option Unit) (extra : List ℝ)

/-- The scalar loss carried by either form of the `predict` return value. -/
def PredictOut.lossOf : PredictOut → ℝ
  | .trainLoss l => l
  | .evalTuple l _ _ _ _ => l

/-- The `predict` closure built by `ALISTAmodel.create_end2end_loss_fn`
(alista_model.py lines 58-128): width-2 sampler, branch dispatch, task loss
via `final_loss`, plus `penalty_coeff * calculate_pinsker_penalty`. -/
def alista_predict {M : Type} (env : ModelEnv M) (bypass_nn diff_required : Bool)
    (params : Params) (q : List ℝ) (iters : ℕ) (zStar : List ℝ) (key : ℕ) : PredictOut :=
  let supervised := env.supervised && diff_required
  let z0 : List ℝ := List.replicate zStar.length 0
  let sp := realized_params env 2 params key
  let fw := l2o_forward env bypass_nn diff_required sp q iters zStar
  let loss := env.finalLoss env.lossMethod fw.1 fw.2.1 supervised z0 zStar
  let penalty_loss := ALISTAmodel.calculate_pinsker_penalty env.NTrain params env.b env.c env.delta
  let loss := loss + env.penaltyCoeff * penalty_loss
  if diff_required then .trainLoss loss
  else .evalTuple loss fw.2.1 fw.2.2.1 fw.2.2.2.1 fw.2.2.2.2

/-- The `predict` closure built by `GLISTAmodel.create_end2end_loss_fn`
(glista_model.py lines 59-129): width-5 sampler, branch dispatch, task loss
via `final_loss`, plus `penalty_coeff * calculate_pinsker_penalty`. -/
def glista_predict {M : Type} (env : ModelEnv M) (bypass_nn diff_required : Bool)
    (params : Params) (q : List ℝ) (iters : ℕ) (zStar : List ℝ) (key : ℕ) : PredictOut :=
  let supervised := env.supervised && diff_required
  let z0 : List ℝ := List.replicate zStar.length 0
  let sp := realized_params env 5 params key
  let fw := l2o_forward env bypass_nn diff_required sp q iters zStar
  let loss := env.finalLoss env.lossMethod fw.1 fw.2.1 supervised z0 zStar
  let penalty_loss := GLISTAmodel.calculate_pinsker_penalty env.NTrain params env.b env.c env.delta
  let loss := loss + env.penaltyCoeff * penalty_loss
  if diff_required then .trainLoss loss
  else .evalTuple loss fw.2.1 fw.2.2.1 fw.2.2.2.1 fw.2.2.2.2

/-- A concrete environment over the trivial matrix type, used to instantiate
universally quantified statements at explicit inputs. -/
def trivEnv : ModelEnv Unit where
  trainUnrolls := 1
  deterministic := false
  supervised := false
  lossMethod := 0
  D := ()
  istaStep := 0
  NTrain := 1
  b := 1
  c := 1
  delta := 1
  penaltyCoeff := 0
  trainFnOverride := none
  evalFnOverride := none
  kStepsTrain := fun _ _ _ _ _ _ => ([], [])
  kStepsEval := fun _ _ _ _ _ _ => ⟨[], [], [], []⟩
  kStepsEvalIsta := fun _ _ _ _ _ _ _ _ => ⟨[], [], [], []⟩
  randomNormal := fun _ _ _ => 0
  finalLoss := fun _ _ _ _ _ _ => 0

/-- A concrete parameter triple of shape (1, 2), used in witnesses. -/
def wParams : Params :=
  ⟨[[1, 2]], [[3, 4]], [0, 0]⟩

/-- A concrete deterministic environment with `N_train = 1`, `b = 1`, `c = 1`
and `delta = 1`, a zero loss-dispatch primitive and dummy kernels, as in the
end-to-end scenario of specification section 8.7 with all free constants
pinned; used to evaluate the loss closure at explicit inputs. -/
def cexEnv : ModelEnv Unit where
  trainUnrolls := 1
  deterministic := true
  supervised := true
  lossMethod := 0
  D := ()
  istaStep := 0
  NTrain := 1
  b := 1
  c := 1
  delta := 1
  penaltyCoeff := 0
  trainFnOverride := none
  evalFnOverride := none
  kStepsTrain := fun _ _ _ _ _ _ => ([], [])
  kStepsEval := fun _ _ _ _ _ _ => ⟨[], [], [], []⟩
  kStepsEvalIsta := fun _ _ _ _ _ _ _ _ => ⟨[], [], [], []⟩
  randomNormal := fun _ _ _ => 0
  finalLoss := fun _ _ _ _ _ _ => 0

/-- A concrete environment whose confidence constants `b = c = e` make every
term of both variants' penalties provably non-negative at the zero parameter
triple; used in the witness of the monotonicity theorem. -/
def monoEnv : ModelEnv Unit where
  trainUnrolls := 1
  deterministic := true
  supervised := true
  lossMethod := 0
  D := ()
  istaStep := 0
  NTrain := 1
  b := Real.exp 1
  c := Real.exp 1
  delta := 1
  penaltyCoeff := 0
  trainFnOverride := none
  evalFnOverride := none
  kStepsTrain := fun _ _ _ _ _ _ => ([], [])
  kStepsEval := fun _ _ _ _ _ _ => ⟨[], [], [], []⟩
  kStepsEvalIsta := fun _ _ _ _ _ _ _ _ => ⟨[], [], [], []⟩
  randomNormal := fun _ _ _ => 0
  finalLoss := fun _ _ _ _ _ _ => 0

/-- A parameter triple of shape (1, 5) with all entries zero. -/
def zeroParams5 : Params :=
  ⟨[[0, 0, 0, 0, 0]], [[0, 0, 0, 0, 0]], [0, 0, 0, 0, 0]⟩

/-- C1: for the ALISTA variant, `calculate_total_penalty` on a parameter
triple whose prior has length `num_groups = 2` returns the sum of the two
per-group KL divergences, plus the union-bound term
`log (pi^2 * num_groups * N_train / (6 * delta))`, plus the per-group clipped
log penalties `2 * log (b * log ((c + 1e-6) / clip (exp prior_i, max := c)))`,
all divided by `N_train`. -/
theorem alista_total_penalty_formula (N c b delta p0 p1 : ℝ)
    (mean sigma : List (List ℝ)) :
    ALISTAmodel.calculate_total_penalty N ⟨mean, sigma, [p0, p1]⟩ c b delta =
      (compute_single_param_KL (column mean 0) ((column sigma 0).map Real.exp) (Real.exp p0)
        + compute_single_param_KL (column mean 1) ((column sigma 1).map Real.exp) (Real.exp p1)
        + Real.log (Real.pi ^ 2 * 2 * N / (6 * delta))
        + (2 * Real.log (b * Real.log ((c + 1e-6) / min (Real.exp p0) c))
          + 2 * Real.log (b * Real.log ((c + 1e-6) / min (Real.exp p1) c)))) / N := by
  simp only [ALISTAmodel.calculate_total_penalty, ALISTAmodel.compute_all_params_KL,
    List.map_cons, List.map_nil, List.sum_cons, List.sum_nil, List.length_cons,
    List.length_nil, List.getD_cons_zero, List.getD_cons_succ]
  norm_num

/-- C2: for the GLISTA variant, `calculate_total_penalty` computes the log
penalty `2 * log (b * log (c / exp (prior 0)))` exactly once from the first
prior entry, the union-bound term `log (pi^2 * N_train / (6 * delta))`
without a `num_groups` multiplier, and a KL sum over the five hyperparameter
columns, each against its own prior entry `exp (prior i)`; the total is
divided by `N_train`. -/
theorem glista_total_penalty_formula (N c b delta p0 p1 p2 p3 p4 : ℝ)
    (mean sigma : List (List ℝ)) :
    GLISTAmodel.calculate_total_penalty N ⟨mean, sigma, [p0, p1, p2, p3, p4]⟩ c b delta =
      (compute_single_param_KL (column mean 0) ((column sigma 0).map Real.exp) (Real.exp p0)
        + compute_single_param_KL (column mean 1) ((column sigma 1).map Real.exp) (Real.exp p1)
        + compute_single_param_KL (column mean 2) ((column sigma 2).map Real.exp) (Real.exp p2)
        + compute_single_param_KL (column mean 3) ((column sigma 3).map Real.exp) (Real.exp p3)
        + compute_single_param_KL (column mean 4) ((column sigma 4).map Real.exp) (Real.exp p4)
        + Real.log (Real.pi ^ 2 * N / (6 * delta))
        + 2 * Real.log (b * Real.log (c / Real.exp p0))) / N := by
  simp only [GLISTAmodel.calculate_total_penalty, GLISTAmodel.compute_all_params_KL,
    List.range_succ, List.range_zero, List.map_cons, List.map_nil, List.map_append,
    List.sum_append, List.sum_cons, List.sum_nil, List.nil_append, List.cons_append,
    List.getD_cons_zero, List.getD_cons_succ]
  ring

lemma hasEig_smul_iff {n : ℕ} (M : Matrix (Fin n) (Fin n) ℝ) (c mu : ℝ) (hc : c ≠ 0) :
    HasEig (c • M) mu ↔ ∃ nu, HasEig M nu ∧ c * nu = mu := by
  constructor
  · rintro ⟨v, hv, h⟩
    refine ⟨c⁻¹ * mu, ⟨v, hv, ?_⟩, by field_simp⟩
    rw [Matrix.smul_mulVec_assoc] at h
    have h2 : c⁻¹ • (c • M.mulVec v) = c⁻¹ • (mu • v) := by rw [h]
    rwa [smul_smul, smul_smul, inv_mul_cancel₀ hc, one_smul] at h2
  · rintro ⟨nu, ⟨v, hv, h⟩, hmu⟩
    exact ⟨v, hv, by rw [Matrix.smul_mulVec_assoc, h, smul_smul, hmu]⟩

lemma eig_set_smul {n : ℕ} (M : Matrix (Fin n) (Fin n) ℝ) (c : ℝ) (hc : c ≠ 0) :
    {mu | HasEig (c • M) mu} = c • {mu | HasEig M mu} := by
  ext mu
  rw [Set.mem_smul_set]
  simp only [Set.mem_setOf_eq, hasEig_smul_iff M c mu hc, smul_eq_mul]

lemma maxEig_smul {n : ℕ} (M : Matrix (Fin n) (Fin n) ℝ) (c : ℝ) (hc : c ≠ 0) (hc0 : 0 ≤ c) :
    maxEig (c • M) = c * maxEig M := by
  rw [maxEig, eig_set_smul M c hc, Real.sSup_smul_of_nonneg hc0, smul_eq_mul, maxEig]

/-- C8: for every system matrix `D`, the baseline step size set by
`initialize_algo` is `0.1` divided by the top eigenvalue of `D.T @ D`, a
deterministic pure function of `D`; rescaling `D` by a nonzero factor `t`
scales the top eigenvalue by `t ^ 2` and hence the step inversely with it. -/
theorem ista_step_eig_scaling {m n : ℕ} (D : Matrix (Fin m) (Fin n) ℝ) (t : ℝ) (ht : t ≠ 0) :
    ista_step D = 0.1 / maxEig (Dᵀ * D)
    ∧ maxEig ((t • D)ᵀ * (t • D)) = t ^ 2 * maxEig (Dᵀ * D)
    ∧ ista_step (t • D) = 0.1 / (t ^ 2 * maxEig (Dᵀ * D)) := by
  have hsq : ((t • D)ᵀ * (t • D)) = (t ^ 2) • (Dᵀ * D) := by
    rw [Matrix.transpose_smul, Matrix.smul_mul, Matrix.mul_smul, smul_smul]
    ring_nf
  have hscale : maxEig ((t • D)ᵀ * (t • D)) = t ^ 2 * maxEig (Dᵀ * D) := by
    rw [hsq, maxEig_smul _ _ (pow_ne_zero 2 ht) (sq_nonneg t)]
  exact ⟨rfl, hscale, by rw [ista_step, hscale]⟩

/-- Witness for C8 at the concrete input `D = 1`, `t = 2`. -/
theorem ista_step_eig_scaling_witness :
    (2 : ℝ) ≠ 0
    ∧ ista_step ((2 : ℝ) • (1 : Matrix (Fin 1) (Fin 1) ℝ))
      = 0.1 / (2 ^ 2 * maxEig ((1 : Matrix (Fin 1) (Fin 1) ℝ)ᵀ * 1)) :=
  ⟨by norm_num, (ista_step_eig_scaling (1 : Matrix (Fin 1) (Fin 1) ℝ) 2 (by norm_num)).2.2⟩

/-- C9: `init_params` of both variants deterministically produces mean and
log-variance arrays of shape (unroll_length, width) and a prior of length
width (width 2 for ALISTA, 5 for GLISTA); log-variance entries are all -10,
prior entries are all `log init_var`, ALISTA mean entries are all 1, and the
GLISTA mean has column 1 equal to 0.5 and every other column equal to 1. -/
theorem init_params_values (K : ℕ) (v : ℝ) :
    (ALISTAmodel.init_params K v).mean = List.replicate K [1, 1]
    ∧ (ALISTAmodel.init_params K v).sigma = List.replicate K [-10, -10]
    ∧ (ALISTAmodel.init_params K v).prior = [Real.log v, Real.log v]
    ∧ (GLISTAmodel.init_params K v).mean = List.replicate K [1, 0.5, 1, 1, 1]
    ∧ (GLISTAmodel.init_params K v).sigma = List.replicate K [-10, -10, -10, -10, -10]
    ∧ (GLISTAmodel.init_params K v).prior
      = [Real.log v, Real.log v, Real.log v, Real.log v, Real.log v] := by
  refine ⟨rfl, ?_, rfl, ?_, ?_, rfl⟩
  · rfl
  · rw [GLISTAmodel.init_params]; rw [List.map_replicate]; rfl
  · rfl

lemma sum_map_pairEntries (f : ℝ → ℝ) (l : List (ℝ × ℝ)) :
    ((l.map (fun wb => wb.1) ++ l.map (fun wb => wb.2)).map f).sum
      = ((pairEntries l).map f).sum := by
  induction l with
  | nil => simp [pairEntries]
  | cons a l ih => simp_all [pairEntries]; linarith

lemma length_pairEntries (l : List (ℝ × ℝ)) : (pairEntries l).length = 2 * l.length := by
  induction l with
  | nil => simp [pairEntries]
  | cons a l ih => simp [pairEntries, ih]; omega

/-- C10: the GLISTA `calculate_avg_posterior_var` returns the constant pair
(0, 0) for every parameter set, while the ALISTA one returns the mean and the
standard deviation of `exp` applied to the entries of the log-variance
array. -/
theorem avg_posterior_var_values (params : Params) (sigma : List (ℝ × ℝ)) :
    GLISTAmodel.calculate_avg_posterior_var params = (0, 0)
    ∧ ALISTAmodel.calculate_avg_posterior_var sigma
      = (listMean ((pairEntries sigma).map Real.exp),
        listStd ((pairEntries sigma).map Real.exp)) := by
  refine ⟨rfl, ?_⟩
  rw [ALISTAmodel.calculate_avg_posterior_var]
  have hlen : ((sigma.map (fun wb => wb.1) ++ sigma.map (fun wb => wb.2)).map Real.exp).length
      = ((pairEntries sigma).map Real.exp).length := by
    simp [length_pairEntries]; omega
  have hsum : ((sigma.map (fun wb => wb.1) ++ sigma.map (fun wb => wb.2)).map Real.exp).sum
      = ((pairEntries sigma).map Real.exp).sum := sum_map_pairEntries Real.exp sigma
  have hmean : listMean ((sigma.map (fun wb => wb.1) ++ sigma.map (fun wb => wb.2)).map Real.exp)
      = listMean ((pairEntries sigma).map Real.exp) := by
    rw [listMean, listMean, hsum, hlen]
  have hstd : listStd ((sigma.map (fun wb => wb.1) ++ sigma.map (fun wb => wb.2)).map Real.exp)
      = listStd ((pairEntries sigma).map Real.exp) := by
    rw [listStd, listStd, hmean, hlen]
    have hsq : (((sigma.map (fun wb => wb.1) ++ sigma.map (fun wb => wb.2)).map Real.exp).map
        (fun x => (x - listMean ((pairEntries sigma).map Real.exp)) ^ 2)).sum
        = (((pairEntries sigma).map Real.exp).map
          (fun x => (x - listMean ((pairEntries sigma).map Real.exp)) ^ 2)).sum := by
      rw [List.map_map, List.map_map]
      exact sum_map_pairEntries _ sigma
    rw [hsq]
  rw [hmean, hstd]

lemma oadd_none (x : Option ℝ) : oadd x none = none := by
  cases x <;> rfl

/-- C3: evaluation of the GLISTA penalty at a concrete parameter triple whose
prior variance `exp (prior 0) = 1` is not below `c = 1`: the log argument is
non-positive, and the computation completes silently with a non-finite value
(`none`) instead of failing fast with a domain error; no exception path
exists in the source. -/
theorem glista_penalty_silent_nan :
    ¬ Real.exp (zeroParams5.prior.getD 0 0) < (1 : ℝ)
    ∧ glista_total_penalty_checked 1 zeroParams5 1 1 1 = none := by
  refine ⟨by simp [zeroParams5, Real.exp_zero], ?_⟩
  have hlog : omul (some (2 : ℝ))
      (olog (omul (some (1 : ℝ))
        (olog (some ((1 : ℝ) / Real.exp (zeroParams5.prior.getD 0 0)))))) = none := by
    norm_num [zeroParams5, olog, omul, Real.exp_zero, Real.log_one]
  simp only [glista_total_penalty_checked]
  rw [hlog, oadd_none]
  rfl

/-- C4: with the bypass flag set, the branch dispatch of `predict` runs the
fixed baseline ISTA kernel for the requested number of iterations from the
zero vector, with the baseline step size, `lambd = 0.1` and
`supervised=True`, whatever realized parameters were sampled; and the tuple
returned by either variant's closure carries exactly that baseline
trajectory, so the learned parameter values, the seed and the deterministic
flag influence at most the scalar loss component (through the penalty term),
never the trajectory. -/
theorem bypass_runs_baseline_only {M : Type} (env : ModelEnv M) (q : List ℝ) (iters : ℕ)
    (zStar : List ℝ) :
    (∀ diff_required sp,
      l2o_forward env true diff_required sp q iters zStar
        = ((env.kStepsEvalIsta iters (List.replicate zStar.length 0) q 0.1 env.D env.istaStep
              true zStar).zFinal,
          (env.kStepsEvalIsta iters (List.replicate zStar.length 0) q 0.1 env.D env.istaStep
              true zStar).iterLosses,
          (env.kStepsEvalIsta iters (List.replicate zStar.length 0) q 0.1 env.D env.istaStep
              true zStar).zAll,
          none,
          (env.kStepsEvalIsta iters (List.replicate zStar.length 0) q 0.1 env.D env.istaStep
              true zStar).extra))
    ∧ (∀ d params key,
        alista_predict { env with deterministic := d } true false params q iters zStar key
          = .evalTuple
              (env.finalLoss env.lossMethod
                  (env.kStepsEvalIsta iters (List.replicate zStar.length 0) q 0.1 env.D
                    env.istaStep true zStar).zFinal
                  (env.kStepsEvalIsta iters (List.replicate zStar.length 0) q 0.1 env.D
                    env.istaStep true zStar).iterLosses
                  false (List.replicate zStar.length 0) zStar
                + env.penaltyCoeff
                  * ALISTAmodel.calculate_pinsker_penalty env.NTrain params env.b env.c env.delta)
              (env.kStepsEvalIsta iters (List.replicate zStar.length 0) q 0.1 env.D env.istaStep
                true zStar).iterLosses
              (env.kStepsEvalIsta iters (List.replicate zStar.length 0) q 0.1 env.D env.istaStep
                true zStar).zAll
              none
              (env.kStepsEvalIsta iters (List.replicate zStar.length 0) q 0.1 env.D env.istaStep
                true zStar).extra)
    ∧ (∀ d params key,
        glista_predict { env with deterministic := d } true false params q iters zStar key
          = .evalTuple
              (env.finalLoss env.lossMethod
                  (env.kStepsEvalIsta iters (List.replicate zStar.length 0) q 0.1 env.D
                    env.istaStep true zStar).zFinal
                  (env.kStepsEvalIsta iters (List.replicate zStar.length 0) q 0.1 env.D
                    env.istaStep true zStar).iterLosses
                  false (List.replicate zStar.length 0) zStar
                + env.penaltyCoeff
                  * GLISTAmodel.calculate_pinsker_penalty env.NTrain params env.b env.c env.delta)
              (env.kStepsEvalIsta iters (List.replicate zStar.length 0) q 0.1 env.D env.istaStep
                true zStar).iterLosses
              (env.kStepsEvalIsta iters (List.replicate zStar.length 0) q 0.1 env.D env.istaStep
                true zStar).zAll
              none
              (env.kStepsEvalIsta iters (List.replicate zStar.length 0) q 0.1 env.D env.istaStep
                true zStar).extra) := by
  refine ⟨fun diff_required sp => ?_, fun d params key => ?_, fun d params key => ?_⟩
  · simp [l2o_forward]
  · simp [alista_predict, l2o_forward, PredictOut.lossOf, Bool.and_false]
  · simp [glista_predict, l2o_forward, PredictOut.lossOf, Bool.and_false]

lemma getD_zipWith_of_lt {α β γ : Type} (f : α → β → γ) (as : List α) (bs : List β) (j : ℕ)
    (da : α) (db : β) (dc : γ) (hja : j < as.length) (hjb : j < bs.length) :
    (List.zipWith f as bs).getD j dc = f (as.getD j da) (bs.getD j db) := by
  rw [List.getD_eq_getElem _ _ (by rw [List.length_zipWith]; omega),
    List.getD_eq_getElem _ _ hja, List.getD_eq_getElem _ _ hjb]
  exact List.getElem_zipWith

lemma getD_map_of_lt {α β : Type} (f : α → β) (as : List α) (j : ℕ) (da : α) (db : β)
    (hj : j < as.length) :
    (as.map f).getD j db = f (as.getD j da) := by
  rw [List.getD_eq_getElem _ _ (by rw [List.length_map]; omega),
    List.getD_eq_getElem _ _ hj]
  exact List.getElem_map f

lemma entry_matZipWith (f : ℝ → ℝ → ℝ) (A B : List (List ℝ)) (i j : ℕ)
    (hiA : i < A.length) (hiB : i < B.length)
    (hjA : j < (A.getD i []).length) (hjB : j < (B.getD i []).length) :
    entry (matZipWith f A B) i j = f (entry A i j) (entry B i j) := by
  unfold entry matZipWith
  rw [getD_zipWith_of_lt (List.zipWith f) A B i [] [] [] hiA hiB]
  exact getD_zipWith_of_lt f _ _ j 0 0 0 hjA hjB

lemma entry_matMap (f : ℝ → ℝ) (A : List (List ℝ)) (i j : ℕ)
    (hiA : i < A.length) (hjA : j < (A.getD i []).length) :
    entry (matMap f A) i j = f (entry A i j) := by
  unfold entry matMap
  rw [getD_map_of_lt (List.map f) A i [] [] hiA]
  exact getD_map_of_lt f _ j 0 0 hjA

lemma perturb_draw_getD {M : Type} (env : ModelEnv M) (width key i : ℕ)
    (hi : i < env.trainUnrolls) :
    (perturb_draw env width key).getD i []
      = (List.range width).map fun j => env.randomNormal key i j := by
  unfold perturb_draw
  rw [getD_map_of_lt _ _ i 0 [] (by rw [List.length_range]; omega)]
  rw [List.getD_eq_getElem _ _ (by rw [List.length_range]; omega), List.getElem_range]

lemma entry_perturb_draw {M : Type} (env : ModelEnv M) (width key i j : ℕ)
    (hi : i < env.trainUnrolls) (hj : j < width) :
    entry (perturb_draw env width key) i j = env.randomNormal key i j := by
  unfold entry
  rw [perturb_draw_getD env width key i hi]
  rw [getD_map_of_lt _ _ j 0 0 (by rw [List.length_range]; omega)]
  rw [List.getD_eq_getElem _ _ (by rw [List.length_range]; omega), List.getElem_range]

/-- C5: the sampler inside the forward-pass closure realizes the
per-iteration parameters as exactly the mean array when the deterministic
flag is set (the seed is never consulted), and otherwise elementwise as
`mean + sqrt (exp log_variance) * perturbation`, where the perturbation is a
`(train_unrolls, width)` standard-normal draw that is a deterministic
function of the seed; hence two calls with the same seed and parameter
triple realize the same parameters. -/
theorem sampler_realization {M : Type} (env : ModelEnv M) (width : ℕ) (params : Params)
    (key : ℕ)
    (hml : params.mean.length = env.trainUnrolls)
    (hsl : params.sigma.length = env.trainUnrolls)
    (hmr : ∀ r ∈ params.mean, r.length = width)
    (hsr : ∀ r ∈ params.sigma, r.length = width) :
    (env.deterministic = true → realized_params env width params key = params.mean)
    ∧ (env.deterministic = false → ∀ i j, i < env.trainUnrolls → j < width →
        entry (realized_params env width params key) i j
          = entry params.mean i j
            + Real.sqrt (Real.exp (entry params.sigma i j)) * env.randomNormal key i j)
    ∧ (perturb_draw env width key).length = env.trainUnrolls
    ∧ (∀ r ∈ perturb_draw env width key, r.length = width)
    ∧ (∀ key2, key2 = key →
        realized_params env width params key2 = realized_params env width params key) := by
  refine ⟨fun hdet => by simp [realized_params, hdet], fun hdet i j hi hj => ?_,
    by simp [perturb_draw], ?_, fun key2 h => by rw [h]⟩
  · have hmi : i < params.mean.length := by omega
    have hsi : i < params.sigma.length := by omega
    have hmrow : (params.mean.getD i []).length = width := by
      rw [List.getD_eq_getElem _ _ hmi]; exact hmr _ (params.mean.getElem_mem hmi)
    have hsrow : (params.sigma.getD i []).length = width := by
      rw [List.getD_eq_getElem _ _ hsi]; exact hsr _ (params.sigma.getElem_mem hsi)
    have hscaleLen : (matMap (fun s => Real.sqrt (Real.exp s)) params.sigma).length
        = env.trainUnrolls := by simp [matMap, hsl]
    have hscaleRow : ((matMap (fun s => Real.sqrt (Real.exp s)) params.sigma).getD i []).length
        = width := by
      unfold matMap
      rw [getD_map_of_lt _ _ i [] [] hsi, List.length_map, hsrow]
    have hpLen : (perturb_draw env width key).length = env.trainUnrolls := by
      simp [perturb_draw]
    have hpRow : ((perturb_draw env width key).getD i []).length = width := by
      rw [perturb_draw_getD env width key i hi, List.length_map, List.length_range]
    have hinnerLen : (matZipWith (fun s p => s * p)
        (matMap (fun s => Real.sqrt (Real.exp s)) params.sigma)
        (perturb_draw env width key)).length = env.trainUnrolls := by
      unfold matZipWith
      rw [List.length_zipWith, hscaleLen, hpLen, min_self]
    have hinnerRow : ((matZipWith (fun s p => s * p)
        (matMap (fun s => Real.sqrt (Real.exp s)) params.sigma)
        (perturb_draw env width key)).getD i []).length = width := by
      unfold matZipWith
      rw [getD_zipWith_of_lt _ _ _ i [] [] [] (by omega) (by omega)]
      rw [List.length_zipWith, hscaleRow, hpRow, min_self]
    rw [realized_params, hdet]
    simp only [Bool.false_eq_true, if_false]
    rw [entry_matZipWith _ _ _ i j (by omega) (by omega) (by omega) (by omega)]
    rw [entry_matZipWith _ _ _ i j (by omega) (by omega) (by omega) (by omega)]
    rw [entry_matMap _ _ i j hsi (by omega)]
    rw [entry_perturb_draw env width key i j hi hj]
  · intro r hr
    unfold perturb_draw at hr
    simp only [List.mem_map] at hr
    obtain ⟨i, _, rfl⟩ := hr
    rw [List.length_map, List.length_range]

/-- Witness for C5 at the concrete environment `trivEnv` (deterministic flag
off) and parameter triple `wParams` of shape (1, 2), seed 0. -/
theorem sampler_realization_witness :
    wParams.mean.length = trivEnv.trainUnrolls
    ∧ wParams.sigma.length = trivEnv.trainUnrolls
    ∧ (∀ r ∈ wParams.mean, r.length = 2)
    ∧ (∀ r ∈ wParams.sigma, r.length = 2)
    ∧ (trivEnv.deterministic = false →
        entry (realized_params trivEnv 2 wParams 0) 0 1
          = entry wParams.mean 0 1
            + Real.sqrt (Real.exp (entry wParams.sigma 0 1)) * trivEnv.randomNormal 0 0 1) :=
  ⟨by simp [wParams, trivEnv], by simp [wParams, trivEnv],
    by intro r hr; simp [wParams] at hr; rw [hr]; rfl,
    by intro r hr; simp [wParams] at hr; rw [hr]; rfl,
    fun hdet =>
      (sampler_realization trivEnv 2 wParams 0 (by simp [wParams, trivEnv])
        (by simp [wParams, trivEnv])
        (by intro r hr; simp [wParams] at hr; rw [hr]; rfl)
        (by intro r hr; simp [wParams] at hr; rw [hr]; rfl)).2.1 hdet 0 1
        (by simp [trivEnv]) (by omega)⟩

lemma alista_lossOf_eq {M : Type} (env : ModelEnv M) (bypass_nn diff_required : Bool)
    (params : Params) (q : List ℝ) (iters : ℕ) (zStar : List ℝ) (key : ℕ) :
    (alista_predict env bypass_nn diff_required params q iters zStar key).lossOf
      = env.finalLoss env.lossMethod
          (l2o_forward env bypass_nn diff_required (realized_params env 2 params key)
            q iters zStar).1
          (l2o_forward env bypass_nn diff_required (realized_params env 2 params key)
            q iters zStar).2.1
          (env.supervised && diff_required) (List.replicate zStar.length 0) zStar
        + env.penaltyCoeff
          * ALISTAmodel.calculate_total_penalty env.NTrain params env.c env.b env.delta := by
  unfold alista_predict ALISTAmodel.calculate_pinsker_penalty
  cases diff_required <;> simp [PredictOut.lossOf]

lemma glista_lossOf_eq {M : Type} (env : ModelEnv M) (bypass_nn diff_required : Bool)
    (params : Params) (q : List ℝ) (iters : ℕ) (zStar : List ℝ) (key : ℕ) :
    (glista_predict env bypass_nn diff_required params q iters zStar key).lossOf
      = env.finalLoss env.lossMethod
          (l2o_forward env bypass_nn diff_required (realized_params env 5 params key)
            q iters zStar).1
          (l2o_forward env bypass_nn diff_required (realized_params env 5 params key)
            q iters zStar).2.1
          (env.supervised && diff_required) (List.replicate zStar.length 0) zStar
        + env.penaltyCoeff
          * GLISTAmodel.calculate_total_penalty env.NTrain params env.c env.b env.delta := by
  unfold glista_predict GLISTAmodel.calculate_pinsker_penalty
  cases diff_required <;> simp [PredictOut.lossOf]

/-- C6: the loss returned by either variant's closure equals the task loss
(the external loss-dispatch primitive applied to the final estimate and the
per-iteration losses of the dispatched branch) plus `penalty_coeff` times
the variant's own `calculate_total_penalty (N_train, params, c, b, delta)`. -/
theorem end2end_loss_composition {M : Type} (env : ModelEnv M)
    (bypass_nn diff_required : Bool) (params : Params) (q : List ℝ) (iters : ℕ)
    (zStar : List ℝ) (key : ℕ) :
    (alista_predict env bypass_nn diff_required params q iters zStar key).lossOf
      = env.finalLoss env.lossMethod
          (l2o_forward env bypass_nn diff_required (realized_params env 2 params key)
            q iters zStar).1
          (l2o_forward env bypass_nn diff_required (realized_params env 2 params key)
            q iters zStar).2.1
          (env.supervised && diff_required) (List.replicate zStar.length 0) zStar
        + env.penaltyCoeff
          * ALISTAmodel.calculate_total_penalty env.NTrain params env.c env.b env.delta
    ∧ (glista_predict env bypass_nn diff_required params q iters zStar key).lossOf
      = env.finalLoss env.lossMethod
          (l2o_forward env bypass_nn diff_required (realized_params env 5 params key)
            q iters zStar).1
          (l2o_forward env bypass_nn diff_required (realized_params env 5 params key)
            q iters zStar).2.1
          (env.supervised && diff_required) (List.replicate zStar.length 0) zStar
        + env.penaltyCoeff
          * GLISTAmodel.calculate_total_penalty env.NTrain params env.c env.b env.delta :=
  ⟨alista_lossOf_eq env bypass_nn diff_required params q iters zStar key,
   glista_lossOf_eq env bypass_nn diff_required params q iters zStar key⟩

lemma l2o_forward_set_penaltyCoeff {M : Type} (env : ModelEnv M) (pc : ℝ)
    (bypass_nn diff_required : Bool) (sp : List (List ℝ)) (q : List ℝ) (iters : ℕ)
    (zStar : List ℝ) :
    l2o_forward { env with penaltyCoeff := pc } bypass_nn diff_required sp q iters zStar
      = l2o_forward env bypass_nn diff_required sp q iters zStar := rfl

lemma realized_params_set_penaltyCoeff {M : Type} (env : ModelEnv M) (pc : ℝ) (width : ℕ)
    (params : Params) (key : ℕ) :
    realized_params { env with penaltyCoeff := pc } width params key
      = realized_params env width params key := rfl

/-- C7 (amended): the scalar returned by the end-to-end loss closure is an
affine function of `penalty_coeff` with slope equal to the variant's total
penalty; holding everything else fixed it is monotonically non-decreasing in
`penalty_coeff` whenever that penalty is non-negative (which is not automatic:
see the counterexample, where the penalty at `init_params` output is
negative). -/
theorem loss_monotone_in_penalty_coeff {M : Type} (env : ModelEnv M)
    (bypass_nn diff_required : Bool) (params : Params) (q : List ℝ) (iters : ℕ)
    (zStar : List ℝ) (key : ℕ) (c1 c2 : ℝ) (hc : c1 ≤ c2)
    (ha : 0 ≤ ALISTAmodel.calculate_total_penalty env.NTrain params env.c env.b env.delta)
    (hg : 0 ≤ GLISTAmodel.calculate_total_penalty env.NTrain params env.c env.b env.delta) :
    (alista_predict { env with penaltyCoeff := c1 } bypass_nn diff_required params
        q iters zStar key).lossOf
      ≤ (alista_predict { env with penaltyCoeff := c2 } bypass_nn diff_required params
        q iters zStar key).lossOf
    ∧ (glista_predict { env with penaltyCoeff := c1 } bypass_nn diff_required params
        q iters zStar key).lossOf
      ≤ (glista_predict { env with penaltyCoeff := c2 } bypass_nn diff_required params
        q iters zStar key).lossOf := by
  constructor
  · rw [alista_lossOf_eq, alista_lossOf_eq]
    simp only [realized_params_set_penaltyCoeff, l2o_forward_set_penaltyCoeff]
    have h := mul_le_mul_of_nonneg_right hc ha
    linarith
  · rw [glista_lossOf_eq, glista_lossOf_eq]
    simp only [realized_params_set_penaltyCoeff, l2o_forward_set_penaltyCoeff]
    have h := mul_le_mul_of_nonneg_right hc hg
    linarith

/-- Witness for C7 (amended) at the concrete environment `monoEnv`
(`N_train = 1`, `b = c = e`, `delta = 1`) and the zero parameter triple,
where both variants' penalties are provably non-negative, so the loss is
non-decreasing from `penalty_coeff = 0` to `penalty_coeff = 10`. -/
theorem loss_monotone_in_penalty_coeff_witness :
    (0 : ℝ) ≤ 10
    ∧ 0 ≤ ALISTAmodel.calculate_total_penalty monoEnv.NTrain zeroParams5 monoEnv.c monoEnv.b
        monoEnv.delta
    ∧ 0 ≤ GLISTAmodel.calculate_total_penalty monoEnv.NTrain zeroParams5 monoEnv.c monoEnv.b
        monoEnv.delta
    ∧ (alista_predict { monoEnv with penaltyCoeff := 0 } false true zeroParams5
          [] 1 [] 0).lossOf
      ≤ (alista_predict { monoEnv with penaltyCoeff := 10 } false true zeroParams5
          [] 1 [] 0).lossOf
    ∧ (glista_predict { monoEnv with penaltyCoeff := 0 } false true zeroParams5
          [] 1 [] 0).lossOf
      ≤ (glista_predict { monoEnv with penaltyCoeff := 10 } false true zeroParams5
          [] 1 [] 0).lossOf := by
  have ha : 0 ≤ ALISTAmodel.calculate_total_penalty monoEnv.NTrain zeroParams5 monoEnv.c
      monoEnv.b monoEnv.delta := by
    have hepos : (0:ℝ) < Real.exp 1 := Real.exp_pos 1
    have h1e : 1 ≤ Real.exp 1 := by have := Real.add_one_le_exp 1; linarith
    have hmin : min (Real.exp 0) (Real.exp 1) = 1 := by
      rw [Real.exp_zero]; exact min_eq_left h1e
    norm_num [ALISTAmodel.calculate_total_penalty, ALISTAmodel.compute_all_params_KL,
      compute_single_param_KL, column, zeroParams5, monoEnv, Real.exp_zero, Real.log_one, hmin]
    have hL : 1 ≤ Real.log (Real.exp 1 + 1 / 1000000) := by
      have h2 := Real.log_le_log hepos
        (show Real.exp 1 ≤ Real.exp 1 + 1 / 1000000 by norm_num)
      rw [Real.log_exp] at h2
      linarith
    have harg : (1:ℝ) ≤ Real.exp 1 * Real.log (Real.exp 1 + 1 / 1000000) := by nlinarith
    nlinarith [Real.log_nonneg harg,
      Real.log_nonneg (show (1:ℝ) ≤ Real.pi ^ 2 * 5 / 6 by nlinarith [Real.pi_gt_three])]
  have hg : 0 ≤ GLISTAmodel.calculate_total_penalty monoEnv.NTrain zeroParams5 monoEnv.c
      monoEnv.b monoEnv.delta := by
    norm_num [GLISTAmodel.calculate_total_penalty, GLISTAmodel.compute_all_params_KL,
      compute_single_param_KL, column, zeroParams5, monoEnv, Real.exp_zero, Real.log_one,
      Real.log_exp, List.range_succ]
    nlinarith [Real.log_nonneg (show (1:ℝ) ≤ Real.pi ^ 2 / 6 by nlinarith [Real.pi_gt_three])]
  have hmono := loss_monotone_in_penalty_coeff monoEnv false true zeroParams5 [] 1 [] 0 0 10
    (by norm_num) ha hg
  exact ⟨by norm_num, ha, hg, hmono.1, hmono.2⟩

/-- C7 counterexample: with `unroll_length = 1`, `init_var = 1` and the
constants `N_train = b = c = delta = 1` (deterministic mode, `bypass=False`,
`diff_required=True`, zero task loss), the ALISTA penalty at the
`init_params` output is strictly negative — the clipped log penalty
`4 * log (log ((1 + 1e-6) / 1))` is about -52.6 while the KL and union-bound
terms total under 14 — so the closure's scalar strictly decreases when
`penalty_coeff` grows from 0 to 10, refuting the claimed monotone increase. -/
theorem penalty_coeff_monotonicity_fails :
    ALISTAmodel.calculate_total_penalty 1 (ALISTAmodel.init_params 1 1) 1 1 1 < 0
    ∧ (alista_predict { cexEnv with penaltyCoeff := 10 } false true
        (ALISTAmodel.init_params 1 1) [] 1 [] 0).lossOf
      < (alista_predict { cexEnv with penaltyCoeff := 0 } false true
        (ALISTAmodel.init_params 1 1) [] 1 [] 0).lossOf := by
  have hP : ALISTAmodel.calculate_total_penalty 1 (ALISTAmodel.init_params 1 1) 1 1 1 < 0 := by
    norm_num [ALISTAmodel.calculate_total_penalty, ALISTAmodel.compute_all_params_KL,
      compute_single_param_KL, column, ALISTAmodel.init_params, List.replicate,
      Real.log_one, Real.exp_zero, one_div, Real.log_inv, Real.log_exp]
    have hexp : Real.exp (-10) ≤ 1 := Real.exp_le_one_iff.mpr (by norm_num)
    have hpipos : (0:ℝ) < Real.pi ^ 2 * 2 / 6 := by positivity
    have hpiub : Real.pi ^ 2 * 2 / 6 ≤ 3.31 := by nlinarith [Real.pi_lt_d2, Real.pi_gt_three]
    have hpi : Real.log (Real.pi ^ 2 * 2 / 6) ≤ 2.31 := by
      have := Real.log_le_sub_one_of_pos hpipos
      linarith
    have hL1 : (0:ℝ) < Real.log (1000001 / 1000000) := Real.log_pos (by norm_num)
    have hL2 : Real.log (1000001 / 1000000 : ℝ) ≤ 1 / 1000000 := by
      have := Real.log_le_sub_one_of_pos (show (0:ℝ) < 1000001 / 1000000 by norm_num)
      linarith
    have h524 : Real.log (1 / 524288 : ℝ) = -(19 * Real.log 2) := by
      rw [show (1 / 524288 : ℝ) = ((2:ℝ) ^ (19:ℕ))⁻¹ by norm_num, Real.log_inv, Real.log_pow]
      norm_num
    have hlogL : Real.log (Real.log (1000001 / 1000000)) ≤ -13.1 := by
      have hmono := Real.log_le_log hL1
        (le_trans hL2 (by norm_num : (1 / 1000000 : ℝ) ≤ 1 / 524288))
      rw [h524] at hmono
      have hlog2 : (0.6931471803 : ℝ) < Real.log 2 := Real.log_two_gt_d9
      nlinarith
    linarith
  refine ⟨hP, ?_⟩
  rw [alista_lossOf_eq, alista_lossOf_eq]
  simp only [realized_params_set_penaltyCoeff, l2o_forward_set_penaltyCoeff]
  norm_num [cexEnv]
  linarith
